import Mathlib

/-!
Verification of the scheduled-message lifecycle of the WhatsApp-Scheduler
repository.  The definitions below are a shallow embedding of the
Supabase-backed `MessageScheduler` component (`src/components/MessageScheduler.tsx`
and the bulk-recipient variant): timestamps are epoch milliseconds (`Int`),
the remote table and the React state are plain lists, and each handler is a
pure function returning the successor state together with the externally
visible effects (launcher invocations, registered notification triggers,
surfaced warnings).
-/

/-- Values of the `status` column, per the table check constraint
`status IN ('pending', 'sent', 'cancelled')`. -/
inductive Status
  | pending
  | sent
  | cancelled
deriving DecidableEq, Repr

/-- One row of `scheduled_messages`, as in the `ScheduledMessage` interface.
`scheduled_time` is the timestamp in epoch milliseconds. -/
structure ScheduledMessage where
  id : Nat
  user_id : Nat
  phone_number : String
  message : String
  scheduled_time : Int
  status : Status
deriving DecidableEq, Repr

/-- A registered due-time trigger: the payload handed to the notification
capability by `scheduleNotification` (`extra: { messageId, phoneNumber, message }`
plus the fire-at time). -/
structure Notif where
  messageId : Nat
  phoneNumber : String
  body : String
  fireAt : Int
deriving DecidableEq, Repr

/-- `updateMessageStatus`: `update({ status }).eq('id', id)` — writes the new
status on every row with the given id, with no guard on the current status. -/
def updateMessageStatus (msgs : List ScheduledMessage) (i : Nat) (st : Status) :
    List ScheduledMessage :=
  msgs.map fun m => if m.id = i then { m with status := st } else m

/-- `sendNow(phoneNumber, message, id)`: `openWhatsApp(phoneNumber, message)`
followed by `updateMessageStatus(id, 'sent')`, unconditionally.  The first
component lists the launcher invocations (recipient, body). -/
def sendNow (msgs : List ScheduledMessage) (phoneNumber body : String) (i : Nat) :
    List (String × String) × List ScheduledMessage :=
  ([(phoneNumber, body)], updateMessageStatus msgs i Status.sent)

/-- The cancel path: `updateMessageStatus(id, 'cancelled')`. -/
def cancelMessage (msgs : List ScheduledMessage) (i : Nat) : List ScheduledMessage :=
  updateMessageStatus msgs i Status.cancelled

/-- The due filter of the periodic check:
`msgs.filter(msg => msg.status === 'pending' && new Date(msg.scheduled_time) <= now)`. -/
def dueSweep (now : Int) (msgs : List ScheduledMessage) : List ScheduledMessage :=
  msgs.filter fun m => m.status == Status.pending && decide (m.scheduled_time ≤ now)

/-- The per-item action of the due-check interval: when the item with the
given id is `pending` and its time has arrived, `openWhatsApp` is called and
the status is updated to `sent`; otherwise nothing happens. -/
def markDue (now : Int) (msgs : List ScheduledMessage) (i : Nat) :
    List (String × String) × List ScheduledMessage :=
  match msgs.find? (fun m => m.id == i) with
  | some m =>
      if m.status == Status.pending && decide (m.scheduled_time ≤ now) then
        ([(m.phone_number, m.message)], updateMessageStatus msgs i Status.sent)
      else ([], msgs)
  | none => ([], msgs)

/-- Firing a registered trigger: the notification click handler (and the
no-permission web fallback) runs `openWhatsApp(payload.phoneNumber,
payload.message)` then `updateMessageStatus(payload.messageId, 'sent')`,
without consulting the item's current status. -/
def fireNotification (n : Notif) (msgs : List ScheduledMessage) :
    List (String × String) × List ScheduledMessage :=
  ([(n.phoneNumber, n.body)], updateMessageStatus msgs n.messageId Status.sent)

/-- Firing a list of registered triggers in order, accumulating the launcher
invocations each produces. -/
def fireAll (ns : List Notif) (msgs : List ScheduledMessage) :
    List (String × String) × List ScheduledMessage :=
  ns.foldl
    (fun acc n =>
      let r := fireNotification n acc.2
      (acc.1 ++ r.1, r.2))
    ([], msgs)

/-- `phoneNumber.replace(/[^\d]/g, '')` — every non-digit is removed. -/
def cleanPhoneNumber (phoneNumber : String) : String :=
  String.mk (phoneNumber.toList.filter Char.isDigit)

/-- The characters `encodeURIComponent` leaves unescaped: ASCII letters,
digits, and `- _ . ! ~ * ( )` together with the apostrophe (code 39). -/
def isUnescapedURI (c : Char) : Bool :=
  (c ≥ 'A' && c ≤ 'Z') || (c ≥ 'a' && c ≤ 'z') || (c ≥ '0' && c ≤ '9') ||
  c = '-' || c = '_' || c = '.' || c = '!' || c = '~' || c = '*' ||
  c.toNat == 39 || c = '(' || c = ')'

/-- Uppercase hexadecimal digit for a value below 16. -/
def hexDigit (n : Nat) : Char :=
  if n < 10 then Char.ofNat (48 + n) else Char.ofNat (55 + n)

/-- UTF-8 byte sequence of a character. -/
def utf8Bytes (c : Char) : List Nat :=
  let n := c.toNat
  if n < 128 then [n]
  else if n < 2048 then [192 + n / 64, 128 + n % 64]
  else if n < 65536 then [224 + n / 4096, 128 + (n / 64) % 64, 128 + n % 64]
  else [240 + n / 262144, 128 + (n / 4096) % 64, 128 + (n / 64) % 64, 128 + n % 64]

/-- Percent-escape of one byte. -/
def percentByte (b : Nat) : List Char :=
  ['%', hexDigit (b / 16), hexDigit (b % 16)]

/-- `encodeURIComponent`: unescaped characters pass through, every other
character is replaced by the percent-escapes of its UTF-8 bytes. -/
def encodeURIComponent (s : String) : String :=
  String.mk (s.toList.flatMap fun c =>
    if isUnescapedURI c then [c] else (utf8Bytes c).flatMap percentByte)

/-- The two URLs built by `openWhatsApp`: the native custom scheme and the
web fallback.  Both are built from `cleanPhoneNumber` and the encoded body. -/
structure WhatsAppUrls where
  nativeUrl : String
  webUrl : String
deriving DecidableEq, Repr

/-- `openWhatsApp(phoneNumber, message)`: strips the recipient to digits,
URL-encodes the body, and forms
`whatsapp://send?phone=...&text=...` (native) and
`https://wa.me/...?text=...` (web). -/
def openWhatsApp (phoneNumber message : String) : WhatsAppUrls :=
  let clean := cleanPhoneNumber phoneNumber
  let encodedMessage := encodeURIComponent message
  ⟨"whatsapp://send?phone=" ++ clean ++ "&text=" ++ encodedMessage,
   "https://wa.me/" ++ clean ++ "?text=" ++ encodedMessage⟩

/-- The compose-form fields of the bulk-recipient scheduler: single phone
number, comma-separated bulk phone numbers, message body, and the date and
time inputs (kept as raw strings, as the handler only tests them for
emptiness before parsing). -/
structure SchedForm where
  phoneNumber : String
  bulkPhoneNumbers : String
  message : String
  scheduledDate : String
  scheduledTime : String
deriving DecidableEq, Repr

/-- The form after the success path clears every field. -/
def emptyForm : SchedForm := ⟨"", "", "", "", ""⟩

/-- The edit-dialog fields (`EditingMessage` interface). -/
structure EditingMessage where
  id : Nat
  phone_number : String
  message : String
  scheduled_date : String
  scheduled_time : String
deriving DecidableEq, Repr

/-- The combined persistent and session state: the `scheduled_messages`
table, the in-memory `scheduledMessages` list, and the registered
notification triggers. -/
structure World where
  db : List ScheduledMessage
  localMsgs : List ScheduledMessage
  notifs : List Notif
deriving DecidableEq, Repr

/-- How `scheduleMessage` exits: one constructor per early return plus the
success path. -/
inductive ScheduleResult
  | missingFields
  | notLoggedIn
  | noPhoneNumbers
  | pastTime
  | persistenceError
  | success
deriving DecidableEq, Repr

/-- How `updateMessage` exits. -/
inductive EditResult
  | missingFields
  | pastTime
  | persistenceError
  | success
deriving DecidableEq, Repr

/-- Everything observable after a `scheduleMessage` call: the exit taken,
the successor state, the form contents, the number of notification warnings
surfaced, and the rows handed to the insert that succeeded. -/
structure SchedOutcome where
  result : ScheduleResult
  world : World
  form : SchedForm
  warnings : Nat
  inserted : List ScheduledMessage
deriving Repr

/-- Everything observable after an `updateMessage` call. -/
structure EditOutcome where
  result : EditResult
  world : World
  warnings : Nat
deriving Repr

/-- The recipient list derived in `scheduleMessage`:
`bulkPhoneNumbers ? bulkPhoneNumbers.split(',').map(trim).filter(num => num)
: phoneNumber ? [phoneNumber] : []`. -/
def derivePhoneNumbers (bulk single : String) : List String :=
  if bulk ≠ "" then ((bulk.splitOn ",").map String.trim).filter (fun num => num ≠ "")
  else if single ≠ "" then [single] else []

/-- `scheduleNotification`: on the native path a notification with a fresh
random id is scheduled, on the web path a timer is set; either way the
trigger is added and nothing previously registered is removed.  The whole
body is wrapped in try/catch, so a failure (the `fails` flag) surfaces one
warning toast and registers nothing — it never propagates. -/
def scheduleNotification (notifs : List Notif) (fails : Bool)
    (messageId : Nat) (phoneNumber body : String) (fireAt : Int) :
    List Notif × Nat :=
  if fails then (notifs, 1)
  else (notifs ++ [⟨messageId, phoneNumber, body, fireAt⟩], 0)

/-- The `for (const messageData of data) await scheduleNotification(...)`
loop over the inserted rows, accumulating the surfaced warnings. -/
def registerNotifications (notifs : List Notif) (fails : Bool)
    (rows : List ScheduledMessage) (body : String) (fireAt : Int) :
    List Notif × Nat :=
  match rows with
  | [] => (notifs, 0)
  | r :: rest =>
    let sn := scheduleNotification notifs fails r.id r.phone_number body fireAt
    let tailReg := registerNotifications sn.1 fails rest body fireAt
    (tailReg.1, sn.2 + tailReg.2)

/-- `loadMessages` as it feeds `scheduledMessages`: the caller's rows whose
status is still `pending` (the query's ordering is immaterial to the
properties below). -/
def loadPending (db : List ScheduledMessage) (uid : Nat) : List ScheduledMessage :=
  db.filter fun m => m.user_id == uid && m.status == Status.pending

/-- `scheduleMessage` of the bulk-recipient variant.  Inputs beyond the form
and state: the signed-in user, the parsed `new Date(date + 'T' + time)`
value `parseDT`, the current time, the id generator standing for the
database's id assignment of the inserted rows, and flags telling whether the
insert call or the notification registrations fail. -/
def scheduleMessage (w : World) (form : SchedForm) (user : Option Nat)
    (parseDT now : Int) (idGen : Nat → Nat)
    (insertFails notifFails : Bool) : SchedOutcome :=
  if form.message = "" ∨ form.scheduledDate = "" ∨ form.scheduledTime = "" then
    ⟨ScheduleResult.missingFields, w, form, 0, []⟩
  else
    match user with
    | none => ⟨ScheduleResult.notLoggedIn, w, form, 0, []⟩
    | some uid =>
      let phones := derivePhoneNumbers form.bulkPhoneNumbers form.phoneNumber
      if phones = [] then ⟨ScheduleResult.noPhoneNumbers, w, form, 0, []⟩
      else if parseDT ≤ now then ⟨ScheduleResult.pastTime, w, form, 0, []⟩
      else if insertFails then ⟨ScheduleResult.persistenceError, w, form, 0, []⟩
      else
        let rows := phones.enum.map fun kp =>
          (⟨idGen kp.1, uid, kp.2, form.message, parseDT, Status.pending⟩ : ScheduledMessage)
        let db' := w.db ++ rows
        let reg := registerNotifications w.notifs notifFails rows form.message parseDT
        ⟨ScheduleResult.success, ⟨db', loadPending db' uid, reg.1⟩, emptyForm, reg.2, rows⟩

/-- `updateMessage` (the edit dialog handler): validates presence and the
future-time requirement, then updates the row's mutable fields (the patch
carries no `status`), re-registers the due-time trigger through
`scheduleNotification`, and reloads the list. -/
def updateMessage (w : World) (uid : Nat) (em : EditingMessage)
    (parseDT now : Int) (updateFails notifFails : Bool) : EditOutcome :=
  if em.message = "" ∨ em.scheduled_date = "" ∨ em.scheduled_time = "" then
    ⟨EditResult.missingFields, w, 0⟩
  else if parseDT ≤ now then ⟨EditResult.pastTime, w, 0⟩
  else if updateFails then ⟨EditResult.persistenceError, w, 0⟩
  else
    let db' := w.db.map fun m =>
      if m.id = em.id then
        { m with phone_number := em.phone_number, message := em.message,
                 scheduled_time := parseDT }
      else m
    let sn := scheduleNotification w.notifs notifFails em.id em.phone_number em.message parseDT
    ⟨EditResult.success, ⟨db', loadPending db' uid, sn.1⟩, sn.2⟩

/-! ## Helper lemmas -/

/-- An element of `updateMessageStatus msgs i st` carrying the id `i` has the
written status. -/
theorem updateMessageStatus_mem_status (msgs : List ScheduledMessage) (i : Nat)
    (st : Status) : ∀ m ∈ updateMessageStatus msgs i st, m.id = i → m.status = st := by
  intro m hm hid
  simp only [updateMessageStatus, List.mem_map] at hm
  obtain ⟨m₀, _, rfl⟩ := hm
  by_cases h : m₀.id = i
  · simp [h]
  · simp [h] at hid

/-- `updateMessageStatus` commutes with looking the id up: the first row with
the id keeps its other fields and receives the written status. -/
theorem find?_updateMessageStatus (msgs : List ScheduledMessage) (i : Nat)
    (st : Status) :
    (updateMessageStatus msgs i st).find? (fun m => m.id == i) =
      (msgs.find? (fun m => m.id == i)).map (fun m => { m with status := st }) := by
  induction msgs with
  | nil => rfl
  | cons a l ih =>
    by_cases h : a.id = i
    · simp [updateMessageStatus, List.find?_cons, h]
    · simp only [updateMessageStatus, List.map_cons, List.find?_cons, if_neg h]
      have hbeq : (a.id == i) = false := by simpa using h
      simp only [hbeq]
      exact ih

/-- With the failure flag set, the registration loop registers nothing and
surfaces one warning per row. -/
theorem registerNotifications_fails (rows : List ScheduledMessage)
    (notifs : List Notif) (body : String) (fireAt : Int) :
    registerNotifications notifs true rows body fireAt = (notifs, rows.length) := by
  induction rows generalizing notifs with
  | nil => rfl
  | cons a l ih =>
    simp [registerNotifications, scheduleNotification, ih]
    omega

/-- `cleanPhoneNumber` is idempotent: a digits-only string is unchanged. -/
theorem cleanPhoneNumber_idem (phoneNumber : String) :
    cleanPhoneNumber (cleanPhoneNumber phoneNumber) = cleanPhoneNumber phoneNumber := by
  unfold cleanPhoneNumber
  congr 1
  show (phoneNumber.toList.filter Char.isDigit).filter Char.isDigit = _
  exact List.filter_eq_self.mpr fun a ha => List.of_mem_filter ha

/-! ## Claim theorems -/

/-- Claim C5: `dueSweep(now, items)` contains exactly the items with
`status = pending` and `dueAt <= now`, running it again on its own result
changes nothing, and permuting the input only permutes the output. -/
theorem dueSweep_exact_idempotent (now : Int) (items otherOrder : List ScheduledMessage) :
    (∀ m, m ∈ dueSweep now items ↔
        m ∈ items ∧ m.status = Status.pending ∧ m.scheduled_time ≤ now) ∧
    dueSweep now (dueSweep now items) = dueSweep now items ∧
    (items.Perm otherOrder → (dueSweep now items).Perm (dueSweep now otherOrder)) := by
  refine ⟨?_, ?_, ?_⟩
  · intro m
    simp [dueSweep, List.mem_filter, and_assoc]
  · unfold dueSweep
    exact List.filter_eq_self.mpr fun a ha => (List.mem_filter.mp ha).2
  · intro hperm
    exact hperm.filter _

/-- A concrete pending item already due at time 3. -/
def sweepSampleA : ScheduledMessage := ⟨1, 1, "+1", "a", 2, Status.pending⟩

/-- A concrete item already sent. -/
def sweepSampleB : ScheduledMessage := ⟨2, 1, "+2", "b", 9, Status.sent⟩

/-- Claim C5 witness: a concrete double sweep and a concrete reordering. -/
theorem dueSweep_exact_idempotent_witness :
    dueSweep 3 (dueSweep 3 [sweepSampleA, sweepSampleB]) =
      dueSweep 3 [sweepSampleA, sweepSampleB] ∧
    (dueSweep 3 [sweepSampleA, sweepSampleB]).Perm
      (dueSweep 3 [sweepSampleB, sweepSampleA]) :=
  ⟨(dueSweep_exact_idempotent 3 [sweepSampleA, sweepSampleB]
      [sweepSampleB, sweepSampleA]).2.1,
   (dueSweep_exact_idempotent 3 [sweepSampleA, sweepSampleB]
      [sweepSampleB, sweepSampleA]).2.2
     (List.Perm.swap sweepSampleB sweepSampleA [])⟩

/-- Claim C9: both launcher URLs are built from the digit-stripped recipient
and the URL-encoded body — `https://wa.me/<digits>?text=<encoded>` on the web
path, `whatsapp://send?phone=<digits>&text=<encoded>` on the native path —
the stripped part keeps exactly the digits of the recipient, and the URLs
depend on the recipient only through its digits (the raw string never
reaches the URL). -/
theorem openWhatsApp_urls (phoneNumber message : String) :
    (openWhatsApp phoneNumber message).webUrl =
      "https://wa.me/" ++ cleanPhoneNumber phoneNumber ++ "?text=" ++
        encodeURIComponent message ∧
    (openWhatsApp phoneNumber message).nativeUrl =
      "whatsapp://send?phone=" ++ cleanPhoneNumber phoneNumber ++ "&text=" ++
        encodeURIComponent message ∧
    (cleanPhoneNumber phoneNumber).toList = phoneNumber.toList.filter Char.isDigit ∧
    (cleanPhoneNumber phoneNumber).toList.all Char.isDigit = true ∧
    openWhatsApp phoneNumber message = openWhatsApp (cleanPhoneNumber phoneNumber) message := by
  refine ⟨rfl, rfl, rfl, ?_, ?_⟩
  · exact List.all_eq_true.mpr fun a ha => List.of_mem_filter ha
  · unfold openWhatsApp
    rw [cleanPhoneNumber_idem]

/-- When the row found for the id is not `pending`, `markDue` changes
nothing and fires nothing. -/
theorem markDue_noop_of_not_pending (now : Int) (msgs : List ScheduledMessage)
    (i : Nat) (m : ScheduledMessage)
    (hfind : msgs.find? (fun x => x.id == i) = some m)
    (hst : m.status ≠ Status.pending) : markDue now msgs i = ([], msgs) := by
  have hguard : (m.status == Status.pending && decide (m.scheduled_time ≤ now)) = false := by
    cases hb : m.status == Status.pending with
    | false => simp [hb]
    | true => exact absurd (eq_of_beq hb) hst
  simp [markDue, hfind, hguard]

/-- When the row found for the id is `pending` and due, `markDue` fires the
launcher for it and writes `sent`. -/
theorem markDue_fires (now : Int) (msgs : List ScheduledMessage) (i : Nat)
    (m : ScheduledMessage) (hfind : msgs.find? (fun x => x.id == i) = some m)
    (hguard : (m.status == Status.pending && decide (m.scheduled_time ≤ now)) = true) :
    markDue now msgs i =
      ([(m.phone_number, m.message)], updateMessageStatus msgs i Status.sent) := by
  simp [markDue, hfind, hguard]

/-- Claim C1 counterexample: an item whose status is `cancelled` does not
keep its status under every operation — `sendNow` on it writes `sent`.  The
scenario of the claim itself: schedule (status `pending`), cancel, then
"Send Now" leaves the item `sent`, not `cancelled`. -/
theorem sendNow_after_cancel_counterexample :
    (sendNow (cancelMessage [⟨1, 7, "+15551234567", "Hello", 10, Status.pending⟩] 1)
        "+15551234567" "Hello" 1).2 =
      [⟨1, 7, "+15551234567", "Hello", 10, Status.sent⟩] ∧
    Status.sent ≠ Status.cancelled := by
  decide

/-- Claim C1 (amended): the due-time path respects terminal statuses — when
no row with the id is still `pending`, `markDue` changes nothing and invokes
no launcher, so schedule–cancel–`markDue` leaves the item `cancelled` — but
`sendNow` invokes the launcher and writes `sent` unconditionally, so
schedule–cancel–`sendNow` moves the item from `cancelled` to `sent`. -/
theorem status_forward_amended (now : Int) (msgs : List ScheduledMessage)
    (i : Nat) (phone body : String)
    (h : ∀ m ∈ msgs, m.id = i → m.status ≠ Status.pending) :
    markDue now msgs i = ([], msgs) ∧
    (sendNow msgs phone body i).1 = [(phone, body)] ∧
    ∀ m ∈ (sendNow msgs phone body i).2, m.id = i → m.status = Status.sent := by
  refine ⟨?_, rfl, ?_⟩
  · cases hfind : msgs.find? (fun x => x.id == i) with
    | none => simp [markDue, hfind]
    | some m =>
      have hmem := List.mem_of_find?_eq_some hfind
      have hid : m.id = i := by simpa using List.find?_some hfind
      exact markDue_noop_of_not_pending now msgs i m hfind (h m hmem hid)
  · exact fun m hm hid => updateMessageStatus_mem_status msgs i Status.sent m hm hid

/-- Claim C1 witness: on a single already-cancelled row, `markDue` is the
identity and fires nothing. -/
theorem status_forward_amended_witness :
    markDue 99 [⟨1, 7, "+15551234567", "Hello", 10, Status.cancelled⟩] 1 =
      ([], [⟨1, 7, "+15551234567", "Hello", 10, Status.cancelled⟩]) :=
  (status_forward_amended 99 [⟨1, 7, "+15551234567", "Hello", 10, Status.cancelled⟩]
      1 "+15551234567" "Hello" (by decide)).1

/-- Claim C2: `markDue` is idempotent and guarded by the `pending` status —
on a row already `sent` or `cancelled` it changes nothing and fires no
launcher; a second invocation right after any first one changes nothing and
fires no launcher; and whenever it fires, the row was `pending` and due, the
launcher receives exactly that row's recipient and body once, and the row's
status becomes `sent`. -/
theorem markDue_idempotent (now : Int) (msgs : List ScheduledMessage) (i : Nat) :
    (∀ m, msgs.find? (fun x => x.id == i) = some m → m.status ≠ Status.pending →
        markDue now msgs i = ([], msgs)) ∧
    markDue now ((markDue now msgs i).2) i = ([], (markDue now msgs i).2) ∧
    ((markDue now msgs i).1 ≠ [] →
      ∃ m, msgs.find? (fun x => x.id == i) = some m ∧ m.status = Status.pending ∧
        m.scheduled_time ≤ now ∧
        (markDue now msgs i).1 = [(m.phone_number, m.message)] ∧
        ∀ m' ∈ (markDue now msgs i).2, m'.id = i → m'.status = Status.sent) := by
  refine ⟨fun m hfind hst => markDue_noop_of_not_pending now msgs i m hfind hst, ?_, ?_⟩
  · cases hfind : msgs.find? (fun x => x.id == i) with
    | none => simp [markDue, hfind]
    | some m =>
      by_cases hguard : (m.status == Status.pending && decide (m.scheduled_time ≤ now)) = true
      · have hfire := markDue_fires now msgs i m hfind hguard
        have hupd := find?_updateMessageStatus msgs i Status.sent
        rw [hfind, Option.map_some'] at hupd
        rw [hfire]
        exact markDue_noop_of_not_pending now (updateMessageStatus msgs i Status.sent) i
          { m with status := Status.sent } hupd (by simp)
      · have hg : (m.status == Status.pending && decide (m.scheduled_time ≤ now)) = false :=
          Bool.eq_false_iff.mpr hguard
        simp [markDue, hfind, hg]
  · intro hne
    cases hfind : msgs.find? (fun x => x.id == i) with
    | none => simp [markDue, hfind] at hne
    | some m =>
      by_cases hguard : (m.status == Status.pending && decide (m.scheduled_time ≤ now)) = true
      · have hparts := hguard
        rw [Bool.and_eq_true] at hparts
        have hfire := markDue_fires now msgs i m hfind hguard
        refine ⟨m, rfl, by simpa using hparts.1, by simpa using hparts.2, ?_, ?_⟩
        · rw [hfire]
        · intro m' hm' hid
          rw [hfire] at hm'
          exact updateMessageStatus_mem_status msgs i Status.sent m' hm' hid
      · have hg : (m.status == Status.pending && decide (m.scheduled_time ≤ now)) = false :=
          Bool.eq_false_iff.mpr hguard
        simp [markDue, hfind, hg] at hne

/-- Claim C2 witness: a second `markDue` after a firing one is a no-op, and
`markDue` on an already-sent row is a no-op. -/
theorem markDue_idempotent_witness :
    markDue 10 ((markDue 10 [⟨1, 7, "+1", "hi", 5, Status.pending⟩] 1).2) 1 =
      ([], (markDue 10 [⟨1, 7, "+1", "hi", 5, Status.pending⟩] 1).2) ∧
    markDue 10 [⟨2, 7, "+2", "yo", 5, Status.sent⟩] 2 =
      ([], [⟨2, 7, "+2", "yo", 5, Status.sent⟩]) :=
  ⟨(markDue_idempotent 10 [⟨1, 7, "+1", "hi", 5, Status.pending⟩] 1).2.1,
   (markDue_idempotent 10 [⟨2, 7, "+2", "yo", 5, Status.sent⟩] 2).1
     ⟨2, 7, "+2", "yo", 5, Status.sent⟩ (by decide) (by decide)⟩

/-- The rows handed to the insert call: one per derived recipient, sharing
the body and due time, each `pending`; the ids come from the store. -/
def insertedRows (form : SchedForm) (uid : Nat) (parseDT : Int)
    (idGen : Nat → Nat) : List ScheduledMessage :=
  (derivePhoneNumbers form.bulkPhoneNumbers form.phoneNumber).enum.map
    fun kp => ⟨idGen kp.1, uid, kp.2, form.message, parseDT, Status.pending⟩

/-- Reduction of `scheduleMessage` on the success path. -/
theorem scheduleMessage_success_eq (w : World) (form : SchedForm) (uid : Nat)
    (parseDT now : Int) (idGen : Nat → Nat) (notifFails : Bool)
    (hm : ¬(form.message = "" ∨ form.scheduledDate = "" ∨ form.scheduledTime = ""))
    (hne : derivePhoneNumbers form.bulkPhoneNumbers form.phoneNumber ≠ [])
    (hfut : ¬ parseDT ≤ now) :
    scheduleMessage w form (some uid) parseDT now idGen false notifFails =
      ⟨ScheduleResult.success,
       ⟨w.db ++ insertedRows form uid parseDT idGen,
        loadPending (w.db ++ insertedRows form uid parseDT idGen) uid,
        (registerNotifications w.notifs notifFails (insertedRows form uid parseDT idGen)
          form.message parseDT).1⟩,
       emptyForm,
       (registerNotifications w.notifs notifFails (insertedRows form uid parseDT idGen)
          form.message parseDT).2,
       insertedRows form uid parseDT idGen⟩ := by
  simp [scheduleMessage, insertedRows, hm, hne, hfut]

/-- Reduction of `scheduleMessage` when the insert call fails. -/
theorem scheduleMessage_insertFails_eq (w : World) (form : SchedForm) (uid : Nat)
    (parseDT now : Int) (idGen : Nat → Nat) (notifFails : Bool)
    (hm : ¬(form.message = "" ∨ form.scheduledDate = "" ∨ form.scheduledTime = ""))
    (hne : derivePhoneNumbers form.bulkPhoneNumbers form.phoneNumber ≠ [])
    (hfut : ¬ parseDT ≤ now) :
    scheduleMessage w form (some uid) parseDT now idGen true notifFails =
      ⟨ScheduleResult.persistenceError, w, form, 0, []⟩ := by
  simp [scheduleMessage, hm, hne, hfut]

/-- Claim C3: a `dueAt` not strictly in the future (including `dueAt = now`)
makes both `scheduleMessage` and `updateMessage` reject before any
persistence call — the state is unchanged, nothing is inserted, and the exit
is a validation error, never success or a persistence error — while a
pending item whose `dueAt` equals the sweep time counts as due. -/
theorem past_dueAt_rejected (w : World) (form : SchedForm) (user : Option Nat)
    (uid : Nat) (em : EditingMessage) (parseDT now : Int) (idGen : Nat → Nat)
    (insertFails notifFails updateFails : Bool) (h : parseDT ≤ now) :
    ((scheduleMessage w form user parseDT now idGen insertFails notifFails).world = w ∧
     (scheduleMessage w form user parseDT now idGen insertFails notifFails).inserted = [] ∧
     (scheduleMessage w form user parseDT now idGen insertFails notifFails).result ≠
        ScheduleResult.success ∧
     (scheduleMessage w form user parseDT now idGen insertFails notifFails).result ≠
        ScheduleResult.persistenceError) ∧
    ((updateMessage w uid em parseDT now updateFails notifFails).world = w ∧
     (updateMessage w uid em parseDT now updateFails notifFails).result ≠
        EditResult.success ∧
     (updateMessage w uid em parseDT now updateFails notifFails).result ≠
        EditResult.persistenceError) ∧
    (∀ m : ScheduledMessage, m.status = Status.pending → m.scheduled_time = now →
       dueSweep now [m] = [m]) := by
  refine ⟨?_, ?_, ?_⟩
  · by_cases hm : form.message = "" ∨ form.scheduledDate = "" ∨ form.scheduledTime = ""
    · simp [scheduleMessage, hm]
    · cases user with
      | none => simp [scheduleMessage, hm]
      | some u =>
        by_cases hp : derivePhoneNumbers form.bulkPhoneNumbers form.phoneNumber = []
        · simp [scheduleMessage, hm, hp]
        · simp [scheduleMessage, hm, hp, h]
  · by_cases hme : em.message = "" ∨ em.scheduled_date = "" ∨ em.scheduled_time = ""
    · simp [updateMessage, hme]
    · simp [updateMessage, hme, h]
  · intro m h1 h2
    simp [dueSweep, List.filter, h1, h2]

/-- Claim C3 witness: with `dueAt` equal to "now", a concrete schedule and a
concrete edit both leave the state untouched. -/
theorem past_dueAt_rejected_witness :
    (scheduleMessage ⟨[], [], []⟩ ⟨"+1", "", "hi", "d", "t"⟩ (some 7) 5 5
        (fun k => k) false false).world = ⟨[], [], []⟩ ∧
    (updateMessage ⟨[], [], []⟩ 7 ⟨1, "+1", "hi", "d", "t"⟩ 5 5 false false).world =
      ⟨[], [], []⟩ :=
  ⟨(past_dueAt_rejected ⟨[], [], []⟩ ⟨"+1", "", "hi", "d", "t"⟩ (some 7) 7
      ⟨1, "+1", "hi", "d", "t"⟩ 5 5 (fun k => k) false false false (by decide)).1.1,
   (past_dueAt_rejected ⟨[], [], []⟩ ⟨"+1", "", "hi", "d", "t"⟩ (some 7) 7
      ⟨1, "+1", "hi", "d", "t"⟩ 5 5 (fun k => k) false false false (by decide)).2.1.1⟩

/-- Claim C4: on a valid submission — non-blank fields, a non-empty derived
recipient list with non-blank entries, and a strictly future `dueAt` — the
schedule succeeds and inserts exactly one row per recipient, in order, all
sharing the body and the due time, each with status `pending`, and each row
is persisted in the store. -/
theorem schedule_one_per_recipient (w : World) (form : SchedForm) (uid : Nat)
    (parseDT now : Int) (idGen : Nat → Nat) (notifFails : Bool)
    (hmsg : form.message ≠ "") (hdate : form.scheduledDate ≠ "")
    (htime : form.scheduledTime ≠ "") (hfut : now < parseDT)
    (hne : derivePhoneNumbers form.bulkPhoneNumbers form.phoneNumber ≠ [])
    (_hblank : ∀ p ∈ derivePhoneNumbers form.bulkPhoneNumbers form.phoneNumber, p ≠ "") :
    (scheduleMessage w form (some uid) parseDT now idGen false notifFails).result =
        ScheduleResult.success ∧
    (scheduleMessage w form (some uid) parseDT now idGen false notifFails).inserted.length =
        (derivePhoneNumbers form.bulkPhoneNumbers form.phoneNumber).length ∧
    (scheduleMessage w form (some uid) parseDT now idGen false notifFails).inserted.map
        ScheduledMessage.phone_number =
      derivePhoneNumbers form.bulkPhoneNumbers form.phoneNumber ∧
    ∀ r ∈ (scheduleMessage w form (some uid) parseDT now idGen false notifFails).inserted,
      r.message = form.message ∧ r.scheduled_time = parseDT ∧
      r.status = Status.pending ∧
      r ∈ (scheduleMessage w form (some uid) parseDT now idGen false notifFails).world.db := by
  have hm : ¬(form.message = "" ∨ form.scheduledDate = "" ∨ form.scheduledTime = "") := by
    simp [hmsg, hdate, htime]
  have hfut' : ¬ parseDT ≤ now := not_le.mpr hfut
  rw [scheduleMessage_success_eq w form uid parseDT now idGen notifFails hm hne hfut']
  refine ⟨rfl, ?_, ?_, ?_⟩
  · show (insertedRows form uid parseDT idGen).length = _
    simp [insertedRows]
  · show (insertedRows form uid parseDT idGen).map ScheduledMessage.phone_number = _
    unfold insertedRows
    rw [List.map_map]
    have hcomp : (ScheduledMessage.phone_number ∘ fun kp : Nat × String =>
        (⟨idGen kp.1, uid, kp.2, form.message, parseDT, Status.pending⟩ :
          ScheduledMessage)) = Prod.snd := by
      funext kp
      rfl
    rw [hcomp, List.enum_map_snd]
  · intro r hr
    obtain ⟨kp, hkp, rfl⟩ := List.mem_map.mp hr
    exact ⟨rfl, rfl, rfl, List.mem_append_right _ hr⟩

/-- Claim C4 witness: a concrete single-recipient submission succeeds and
inserts that recipient. -/
theorem schedule_one_per_recipient_witness :
    (scheduleMessage ⟨[], [], []⟩ ⟨"+1", "", "Hi", "d", "t"⟩ (some 7) 10 5
        (fun k => k) false false).result = ScheduleResult.success ∧
    (scheduleMessage ⟨[], [], []⟩ ⟨"+1", "", "Hi", "d", "t"⟩ (some 7) 10 5
        (fun k => k) false false).inserted.map ScheduledMessage.phone_number =
      derivePhoneNumbers "" "+1" :=
  ⟨(schedule_one_per_recipient ⟨[], [], []⟩ ⟨"+1", "", "Hi", "d", "t"⟩ 7 10 5
      (fun k => k) false (by decide) (by decide) (by decide) (by decide)
      (by decide) (by decide)).1,
   (schedule_one_per_recipient ⟨[], [], []⟩ ⟨"+1", "", "Hi", "d", "t"⟩ 7 10 5
      (fun k => k) false (by decide) (by decide) (by decide) (by decide)
      (by decide) (by decide)).2.2.1⟩

/-- Claim C7: when the insert succeeds but every notification registration
fails, the failure is non-fatal — the call still succeeds, at least one
warning is surfaced, no trigger is registered, the inserted rows are kept in
the store with status `pending`, and each of them is picked up by
`dueSweep` once its time arrives. -/
theorem notification_failure_nonfatal (w : World) (form : SchedForm) (uid : Nat)
    (parseDT now : Int) (idGen : Nat → Nat)
    (hmsg : form.message ≠ "") (hdate : form.scheduledDate ≠ "")
    (htime : form.scheduledTime ≠ "") (hfut : now < parseDT)
    (hne : derivePhoneNumbers form.bulkPhoneNumbers form.phoneNumber ≠ []) :
    (scheduleMessage w form (some uid) parseDT now idGen false true).result =
        ScheduleResult.success ∧
    (scheduleMessage w form (some uid) parseDT now idGen false true).world.notifs =
        w.notifs ∧
    0 < (scheduleMessage w form (some uid) parseDT now idGen false true).warnings ∧
    (scheduleMessage w form (some uid) parseDT now idGen false true).world.db =
        w.db ++ (scheduleMessage w form (some uid) parseDT now idGen false true).inserted ∧
    (scheduleMessage w form (some uid) parseDT now idGen false true).inserted ≠ [] ∧
    ∀ r ∈ (scheduleMessage w form (some uid) parseDT now idGen false true).inserted,
      r.status = Status.pending ∧
      r ∈ dueSweep parseDT
        (scheduleMessage w form (some uid) parseDT now idGen false true).world.db := by
  have hm : ¬(form.message = "" ∨ form.scheduledDate = "" ∨ form.scheduledTime = "") := by
    simp [hmsg, hdate, htime]
  have hfut' : ¬ parseDT ≤ now := not_le.mpr hfut
  rw [scheduleMessage_success_eq w form uid parseDT now idGen true hm hne hfut']
  have hreg := registerNotifications_fails (insertedRows form uid parseDT idGen)
    w.notifs form.message parseDT
  have hrows : insertedRows form uid parseDT idGen ≠ [] := by
    unfold insertedRows
    cases hd : derivePhoneNumbers form.bulkPhoneNumbers form.phoneNumber with
    | nil => exact absurd hd hne
    | cons a t => simp [List.enum]
  refine ⟨rfl, ?_, ?_, rfl, hrows, ?_⟩
  · show (registerNotifications w.notifs true _ form.message parseDT).1 = w.notifs
    rw [hreg]
  · show 0 < (registerNotifications w.notifs true _ form.message parseDT).2
    rw [hreg]
    exact List.length_pos.mpr hrows
  · intro r hr
    have hpend : r.status = Status.pending := by
      obtain ⟨kp, _, rfl⟩ := List.mem_map.mp hr
      rfl
    have htm : r.scheduled_time = parseDT := by
      obtain ⟨kp, _, rfl⟩ := List.mem_map.mp hr
      rfl
    refine ⟨hpend, List.mem_filter.mpr ⟨List.mem_append_right _ hr, ?_⟩⟩
    simp [hpend, htm]

/-- Claim C7 witness: a concrete schedule whose notification registration
fails still succeeds, warns, and keeps the row pending. -/
theorem notification_failure_nonfatal_witness :
    (scheduleMessage ⟨[], [], []⟩ ⟨"+1", "", "Hi", "d", "t"⟩ (some 7) 10 5
        (fun k => k) false true).result = ScheduleResult.success ∧
    0 < (scheduleMessage ⟨[], [], []⟩ ⟨"+1", "", "Hi", "d", "t"⟩ (some 7) 10 5
        (fun k => k) false true).warnings :=
  ⟨(notification_failure_nonfatal ⟨[], [], []⟩ ⟨"+1", "", "Hi", "d", "t"⟩ 7 10 5
      (fun k => k) (by decide) (by decide) (by decide) (by decide) (by decide)).1,
   (notification_failure_nonfatal ⟨[], [], []⟩ ⟨"+1", "", "Hi", "d", "t"⟩ 7 10 5
      (fun k => k) (by decide) (by decide) (by decide) (by decide) (by decide)).2.2.1⟩

/-- Claim C8: when the insert call fails on an otherwise valid submission,
the operation exits with the persistence error, the whole state — store,
in-memory list, and registered triggers — is exactly as before, nothing is
recorded as inserted, no warning-only path is taken, and the form keeps its
contents. -/
theorem persistence_failure_no_divergence (w : World) (form : SchedForm) (uid : Nat)
    (parseDT now : Int) (idGen : Nat → Nat) (notifFails : Bool)
    (hmsg : form.message ≠ "") (hdate : form.scheduledDate ≠ "")
    (htime : form.scheduledTime ≠ "") (hfut : now < parseDT)
    (hne : derivePhoneNumbers form.bulkPhoneNumbers form.phoneNumber ≠ []) :
    (scheduleMessage w form (some uid) parseDT now idGen true notifFails).result =
        ScheduleResult.persistenceError ∧
    (scheduleMessage w form (some uid) parseDT now idGen true notifFails).world = w ∧
    (scheduleMessage w form (some uid) parseDT now idGen true notifFails).form = form ∧
    (scheduleMessage w form (some uid) parseDT now idGen true notifFails).inserted = [] ∧
    (scheduleMessage w form (some uid) parseDT now idGen true notifFails).warnings = 0 := by
  have hm : ¬(form.message = "" ∨ form.scheduledDate = "" ∨ form.scheduledTime = "") := by
    simp [hmsg, hdate, htime]
  have hfut' : ¬ parseDT ≤ now := not_le.mpr hfut
  rw [scheduleMessage_insertFails_eq w form uid parseDT now idGen notifFails hm hne hfut']
  exact ⟨rfl, rfl, rfl, rfl, rfl⟩

/-- Claim C8 witness: a concrete failing insert leaves the state and the
form untouched. -/
theorem persistence_failure_no_divergence_witness :
    (scheduleMessage ⟨[], [], []⟩ ⟨"+1", "", "Hi", "d", "t"⟩ (some 7) 10 5
        (fun k => k) true false).world = ⟨[], [], []⟩ ∧
    (scheduleMessage ⟨[], [], []⟩ ⟨"+1", "", "Hi", "d", "t"⟩ (some 7) 10 5
        (fun k => k) true false).form = ⟨"+1", "", "Hi", "d", "t"⟩ :=
  ⟨(persistence_failure_no_divergence ⟨[], [], []⟩ ⟨"+1", "", "Hi", "d", "t"⟩ 7 10 5
      (fun k => k) false (by decide) (by decide) (by decide) (by decide) (by decide)).2.1,
   (persistence_failure_no_divergence ⟨[], [], []⟩ ⟨"+1", "", "Hi", "d", "t"⟩ 7 10 5
      (fun k => k) false (by decide) (by decide) (by decide) (by decide) (by decide)).2.2.1⟩

/-- Claim C10: a non-empty bulk field determines the recipients as the
comma-split, trimmed, non-empty entries, with the single phone field
ignored; an empty bulk field falls back to the single non-empty phone
number; and a submission whose derived list is empty is rejected without
touching the state. -/
theorem derive_recipients_bulk (bulk single : String) (w : World) (form : SchedForm)
    (uid : Nat) (parseDT now : Int) (idGen : Nat → Nat)
    (insertFails notifFails : Bool) :
    (bulk ≠ "" →
      derivePhoneNumbers bulk single =
        ((bulk.splitOn ",").map String.trim).filter (fun num => num ≠ "") ∧
      ∀ other : String, derivePhoneNumbers bulk other = derivePhoneNumbers bulk single) ∧
    (bulk = "" → single ≠ "" → derivePhoneNumbers bulk single = [single]) ∧
    (derivePhoneNumbers form.bulkPhoneNumbers form.phoneNumber = [] →
      (scheduleMessage w form (some uid) parseDT now idGen insertFails notifFails).world = w ∧
      (scheduleMessage w form (some uid) parseDT now idGen insertFails notifFails).inserted = [] ∧
      (scheduleMessage w form (some uid) parseDT now idGen insertFails notifFails).result ≠
        ScheduleResult.success) := by
  refine ⟨?_, ?_, ?_⟩
  · intro hb
    exact ⟨by simp [derivePhoneNumbers, hb], fun other => by simp [derivePhoneNumbers, hb]⟩
  · intro hb hs
    simp [derivePhoneNumbers, hb, hs]
  · intro hempty
    by_cases hm : form.message = "" ∨ form.scheduledDate = "" ∨ form.scheduledTime = ""
    · simp [scheduleMessage, hm]
    · simp [scheduleMessage, hm, hempty]

/-- Claim C10 witness: concrete bulk and single-number derivations, using the
theorem at those inputs. -/
theorem derive_recipients_bulk_witness :
    derivePhoneNumbers " +1 , +2," "ignored" =
      (((" +1 , +2,").splitOn ",").map String.trim).filter (fun num => num ≠ "") ∧
    derivePhoneNumbers "" "+9" = ["+9"] :=
  ⟨((derive_recipients_bulk " +1 , +2," "ignored" ⟨[], [], []⟩ ⟨"", "", "", "", ""⟩
      0 0 0 (fun k => k) false false).1 (by decide)).1,
   (derive_recipients_bulk "" "+9" ⟨[], [], []⟩ ⟨"", "", "", "", ""⟩
      0 0 0 (fun k => k) false false).2.1 rfl (by decide)⟩

/-- A pending item whose due-time trigger was registered when it was
scheduled. -/
def editBugItem : ScheduledMessage := ⟨1, 7, "+15551234567", "Hello", 100, Status.pending⟩

/-- The state just before the edit: the item is stored, listed, and has one
registered trigger. -/
def editBugWorld : World :=
  ⟨[editBugItem], [editBugItem], [⟨1, "+15551234567", "Hello", 100⟩]⟩

/-- The edit moving the item's body and due time. -/
def editBugEdit : EditingMessage := ⟨1, "+15551234567", "Hello again", "2025-01-02", "10:00"⟩

/-- Claim C6 exhibit: a successful edit of a pending item with an existing
trigger leaves two registered triggers for the same id — the pre-edit
trigger is never cancelled (`scheduleNotification` only adds, under a fresh
random notification id) — and when the registered triggers fire, the
launcher is invoked twice for the one item, once with the stale pre-edit
payload. -/
theorem edit_duplicates_trigger :
    (updateMessage editBugWorld 7 editBugEdit 200 0 false false).result =
        EditResult.success ∧
    ((updateMessage editBugWorld 7 editBugEdit 200 0 false false).world.notifs.filter
        (fun n => n.messageId == 1)).length = 2 ∧
    (fireAll (updateMessage editBugWorld 7 editBugEdit 200 0 false false).world.notifs
        (updateMessage editBugWorld 7 editBugEdit 200 0 false false).world.db).1 =
      [("+15551234567", "Hello"), ("+15551234567", "Hello again")] := by
  decide
